import Mathlib

/-!
# glue_bridge: handshake and request translation

A shallow embedding of `bridge.go`.  Calls into the collaborators (the glue
socket, the ferry backend, the cement reply codes) are recorded in a trace, in
program order, so that statements about "how many times" and "in which order"
become statements about a list.  `encoding/json` is modelled for the three Go
types the bridge uses it with (`map[string]string`, `requestPayload`,
`responsePayload`).  Messages are sequences of Unicode scalar values.
-/

set_option autoImplicit false

namespace glue_bridge

/-! ## Go maps with string keys -/

/-- A Go `map[string]α`: finitely many entries, no key twice. -/
structure GoMap (α : Type) where
  entries : List (String × α)
  nodup : (entries.map Prod.fst).Nodup
  deriving DecidableEq

/-- The map `make(map[string]α)` (a nil map ranges the same way). -/
def GoMap.empty {α : Type} : GoMap α :=
  ⟨[], List.nodup_nil⟩

/-- The assignment `m[k] = v`. -/
def GoMap.set {α : Type} (m : GoMap α) (k : String) (v : α) : GoMap α :=
  ⟨(k, v) :: m.entries.filter (fun e => e.1 ≠ k), by
    have hsub : ((m.entries.filter (fun e => e.1 ≠ k)).map Prod.fst).Sublist
        (m.entries.map Prod.fst) := (List.filter_sublist m.entries).map Prod.fst
    rw [List.map_cons, List.nodup_cons]
    refine ⟨?_, m.nodup.sublist hsub⟩
    intro hmem
    rcases List.mem_map.1 hmem with ⟨e, he, hk⟩
    have := (List.mem_filter.1 he).2
    simp [hk] at this⟩

/-- The lookup `v, ok := m[k]`. -/
def GoMap.get? {α : Type} (m : GoMap α) (k : String) : Option α :=
  (m.entries.find? (fun e => e.1 == k)).map Prod.snd

/-- The keys of the map. -/
def GoMap.keys {α : Type} (m : GoMap α) : List String :=
  m.entries.map Prod.fst

/-- The number of entries, `len(m)`. -/
def GoMap.len {α : Type} (m : GoMap α) : Nat :=
  m.entries.length

/-! ## encoding/json, for the bridge's three types -/

/-- The errors `json.Unmarshal` reports: a `*SyntaxError`, or an
`*UnmarshalTypeError` naming the kind of JSON value that did not fit. -/
inductive JsonError where
  | invalidJson
  | unmarshalType (value : String)
  deriving DecidableEq, Repr

/-- The scanner's nesting limit. -/
def maxNestingDepth : Nat := 10000

/-- JSON insignificant whitespace. -/
def isSpace (c : Char) : Bool :=
  c == ' ' || c == '\t' || c == '\r' || c == '\n'

/-- Drop leading whitespace. -/
def skipSpace : List Char → List Char
  | [] => []
  | c :: cs => if isSpace c then skipSpace cs else c :: cs

/-- Value of a hexadecimal digit. -/
def hexVal (c : Char) : Option Nat :=
  if '0' ≤ c ∧ c ≤ '9' then some (c.toNat - '0'.toNat)
  else if 'a' ≤ c ∧ c ≤ 'f' then some (c.toNat - 'a'.toNat + 10)
  else if 'A' ≤ c ∧ c ≤ 'F' then some (c.toNat - 'A'.toNat + 10)
  else none

/-- A UTF-16 surrogate code unit. -/
def isSurrogate (r : Nat) : Bool :=
  0xD800 ≤ r && r < 0xE000

/-- The replacement character U+FFFD. -/
def replacementChar : Char := Char.ofNat 0xFFFD

/-- The rune of a surrogate pair, `utf16.DecodeRune`. -/
def decodeSurrogates (r1 r2 : Nat) : Option Char :=
  if 0xD800 ≤ r1 ∧ r1 < 0xDC00 ∧ 0xDC00 ≤ r2 ∧ r2 < 0xE000 then
    some (Char.ofNat ((r1 - 0xD800) * 0x400 + (r2 - 0xDC00) + 0x10000))
  else none

/-- Where the string reader stands: in plain text, after a backslash, or
inside the four digits of a `\u` escape.  `pend` is a surrogate read from a
`\u` escape that still waits for its partner. -/
inductive StrState where
  | plain (pend : Option Nat)
  | esc (pend : Option Nat)
  | hex (pend : Option Nat) (n : Nat) (acc : Nat)

/-- A surrogate left without a partner becomes U+FFFD (`out` is reversed). -/
def flushPending (pend : Option Nat) (out : List Char) : List Char :=
  match pend with
  | some _ => replacementChar :: out
  | none => out

/-- The character a one-letter escape stands for. -/
def unescape (e : Char) : Option Char :=
  if e == '"' then some '"'
  else if e == '\\' then some '\\'
  else if e == '/' then some '/'
  else if e == 'b' then some (Char.ofNat 8)
  else if e == 'f' then some (Char.ofNat 12)
  else if e == 'n' then some '\n'
  else if e == 'r' then some '\r'
  else if e == 't' then some '\t'
  else none

/-- Read a string literal one character at a time; `out` is the text so far,
reversed. -/
def scanStringAux : StrState → List Char → List Char → Option (List Char × List Char)
  | _, _, [] => none
  | .plain pend, out, c :: cs =>
    if c == '"' then some ((flushPending pend out).reverse, cs)
    else if c == '\\' then scanStringAux (.esc pend) out cs
    else if c.toNat < 0x20 then none
    else scanStringAux (.plain none) (c :: flushPending pend out) cs
  | .esc pend, out, c :: cs =>
    if c == 'u' then scanStringAux (.hex pend 0 0) out cs
    else
      match unescape c with
      | some ch => scanStringAux (.plain none) (ch :: flushPending pend out) cs
      | none => none
  | .hex pend n acc, out, c :: cs =>
    match hexVal c with
    | none => none
    | some v =>
      if n < 3 then scanStringAux (.hex pend (n + 1) (acc * 16 + v)) out cs
      else
        match pend.bind (fun r1 => decodeSurrogates r1 (acc * 16 + v)) with
        | some ch => scanStringAux (.plain none) (ch :: out) cs
        | none =>
          if isSurrogate (acc * 16 + v) then
            scanStringAux (.plain (some (acc * 16 + v))) (flushPending pend out) cs
          else
            scanStringAux (.plain none) (Char.ofNat (acc * 16 + v) :: flushPending pend out) cs

/-- Read a string literal whose opening quote has been consumed: the unquoted
text and the input after the closing quote; `none` when the literal is not
valid JSON. -/
def scanString (cs : List Char) : Option (List Char × List Char) :=
  scanStringAux (.plain none) [] cs

/-- Where the number reader stands (the scanner's `stateNeg`, `state0`,
`state1`, `stateDot`, `stateDot0`, `stateE`, `stateESign`, `stateE0`). -/
inductive NumState where
  | neg | zero | int | dot | frac | exp | expSign | expDigits

/-- A decimal digit. -/
def isDigit (c : Char) : Bool :=
  decide ('0' ≤ c) && decide (c ≤ '9')

/-- Read the rest of a number: the input from the first character that does
not belong to it; `none` when the number is cut short. -/
def scanNumberAux : NumState → List Char → Option (List Char)
  | st, [] =>
    match st with
    | .zero | .int | .frac | .expDigits => some []
    | _ => none
  | st, c :: cs =>
    match st with
    | .neg =>
      if c == '0' then scanNumberAux .zero cs
      else if isDigit c then scanNumberAux .int cs
      else none
    | .zero =>
      if c == '.' then scanNumberAux .dot cs
      else if c == 'e' || c == 'E' then scanNumberAux .exp cs
      else some (c :: cs)
    | .int =>
      if isDigit c then scanNumberAux .int cs
      else if c == '.' then scanNumberAux .dot cs
      else if c == 'e' || c == 'E' then scanNumberAux .exp cs
      else some (c :: cs)
    | .dot => if isDigit c then scanNumberAux .frac cs else none
    | .frac =>
      if isDigit c then scanNumberAux .frac cs
      else if c == 'e' || c == 'E' then scanNumberAux .exp cs
      else some (c :: cs)
    | .exp =>
      if c == '+' || c == '-' then scanNumberAux .expSign cs
      else if isDigit c then scanNumberAux .expDigits cs
      else none
    | .expSign => if isDigit c then scanNumberAux .expDigits cs else none
    | .expDigits => if isDigit c then scanNumberAux .expDigits cs else some (c :: cs)

/-- Read the remaining letters of `true`, `false` or `null`. -/
def dropLit : List Char → List Char → Option (List Char)
  | [], cs => some cs
  | _ :: _, [] => none
  | l :: ls, c :: cs => if l == c then dropLit ls cs else none

/-- Read an object key and the colon after it: the key and the input after
the colon. -/
def scanKey (cs : List Char) : Option (List Char × List Char) :=
  match skipSpace cs with
  | [] => none
  | q :: r =>
    if q == '"' then
      match scanString r with
      | none => none
      | some (k, r2) =>
        match skipSpace r2 with
        | [] => none
        | c :: r3 => if c == ':' then some (k, r3) else none
    else none

/-- What encloses the value being read (the scanner's parse stack). -/
inductive ParseState where
  | parseObjectValue
  | parseArrayValue

/-- The scanner.  With `begin = true` it expects a value; with `begin = false`
a value has just ended and it expects what the enclosing object or array
allows next.  It returns the input left when the outermost value has ended. -/
def scanNext : Nat → List ParseState → Bool → List Char → Option (List Char)
  | 0, _, _, _ => none
  | fuel + 1, stack, true, cs =>
    match skipSpace cs with
    | [] => none
    | c :: r =>
      if c == '"' then (scanString r).bind (fun p => scanNext fuel stack false p.2)
      else if c == '{' then
        if stack.length + 1 > maxNestingDepth then none
        else
          match skipSpace r with
          | [] => none
          | c2 :: r2 =>
            if c2 == '}' then scanNext fuel stack false r2
            else (scanKey r).bind (fun p => scanNext fuel (.parseObjectValue :: stack) true p.2)
      else if c == '[' then
        if stack.length + 1 > maxNestingDepth then none
        else
          match skipSpace r with
          | [] => none
          | c2 :: r2 =>
            if c2 == ']' then scanNext fuel stack false r2
            else scanNext fuel (.parseArrayValue :: stack) true r
      else if c == 't' then (dropLit "rue".toList r).bind (scanNext fuel stack false)
      else if c == 'f' then (dropLit "alse".toList r).bind (scanNext fuel stack false)
      else if c == 'n' then (dropLit "ull".toList r).bind (scanNext fuel stack false)
      else if c == '-' then (scanNumberAux .neg r).bind (scanNext fuel stack false)
      else if c == '0' then (scanNumberAux .zero r).bind (scanNext fuel stack false)
      else if isDigit c then (scanNumberAux .int r).bind (scanNext fuel stack false)
      else none
  | fuel + 1, stack, false, cs =>
    match stack with
    | [] => some cs
    | .parseObjectValue :: st =>
      match skipSpace cs with
      | [] => none
      | c :: r =>
        if c == ',' then (scanKey r).bind (fun p => scanNext fuel stack true p.2)
        else if c == '}' then scanNext fuel st false r
        else none
    | .parseArrayValue :: st =>
      match skipSpace cs with
      | [] => none
      | c :: r =>
        if c == ',' then scanNext fuel stack true r
        else if c == ']' then scanNext fuel st false r
        else none

/-- Read one JSON value of any shape: the input after it. -/
def skipValue (cs : List Char) : Option (List Char) :=
  scanNext (2 * cs.length + 2) [] true cs

/-- The test `checkValid`: the input is one JSON value, with nothing but
whitespace around it. -/
def checkValid (cs : List Char) : Bool :=
  match skipValue cs with
  | some r => (skipSpace r).isEmpty
  | none => false

/-- A value as the decoder of a string-typed target sees it: a string, `null`,
or a value of another kind (named as `UnmarshalTypeError.Value` names it). -/
inductive JsonValue where
  | str (s : String)
  | null
  | other (kind : String)
  deriving DecidableEq, Repr

/-- A document as the decoder sees it: an object with its members in order, or
a value that is not an object. -/
inductive JsonTop where
  | object (members : List (String × JsonValue))
  | value (v : JsonValue)
  deriving DecidableEq, Repr

/-- Read one value and say what the decoder sees. -/
def readValue (cs : List Char) : Option (JsonValue × List Char) :=
  match skipSpace cs with
  | [] => none
  | c :: r =>
    if c == '"' then (scanString r).map (fun p => (.str (String.mk p.1), p.2))
    else
      (skipValue (c :: r)).map (fun rest =>
        (if c == 'n' then JsonValue.null
         else if c == 't' || c == 'f' then .other "bool"
         else if c == '[' then .other "array"
         else if c == '{' then .other "object"
         else .other "number", rest))

/-- Read the members of an object, from its first key to its closing brace. -/
def readMembers : Nat → List Char → Option (List (String × JsonValue))
  | 0, _ => none
  | fuel + 1, cs =>
    match scanKey cs with
    | none => none
    | some (k, r) =>
      match readValue r with
      | none => none
      | some (v, r2) =>
        match skipSpace r2 with
        | [] => none
        | c :: r3 =>
          if c == ',' then (readMembers fuel r3).map (fun ms => (String.mk k, v) :: ms)
          else if c == '}' then some [(String.mk k, v)]
          else none

/-- Read a whole document; `none` when it is not valid JSON. -/
def readTop (cs : List Char) : Option JsonTop :=
  if checkValid cs then
    match skipSpace cs with
    | [] => none
    | c :: r =>
      if c == '{' then
        match skipSpace r with
        | [] => none
        | c2 :: _ => if c2 == '}' then some (.object []) else (readMembers cs.length r).map .object
      else (readValue (c :: r)).map (fun p => .value p.1)
  else none

/-- The Go type `requestPayload`. -/
structure requestPayload where
  Method : String
  Path : String
  Payload : String
  deriving DecidableEq, Repr

/-- The Go type `responsePayload`. -/
structure responsePayload where
  Status : Int
  Payload : String
  deriving DecidableEq, Repr

/-- The fields of `requestPayload`. -/
inductive ReqField where
  | method | path | payload
  deriving DecidableEq, Repr

/-- The JSON names of the fields, from the struct tags. -/
def fieldNames : List (ReqField × String) :=
  [(.method, "method"), (.path, "path"), (.payload, "payload")]

/-- Lower-case an ASCII letter. -/
def foldAscii (c : Char) : Char :=
  if 'A' ≤ c ∧ c ≤ 'Z' then Char.ofNat (c.toNat + 32) else c

/-- Case-insensitive comparison with a field name.  The three names have no
letter with a non-ASCII case variant, so ASCII folding decides it. -/
def equalFold (a b : String) : Bool :=
  a.toList.map foldAscii == b.toList.map foldAscii

/-- The field a key names: an exact match first, else a case-insensitive one. -/
def findField (key : String) : Option ReqField :=
  match fieldNames.find? (fun f => f.2 == key) with
  | some f => some f.1
  | none => (fieldNames.find? (fun f => equalFold f.2 key)).map Prod.fst

/-- Assign a field. -/
def setField (p : requestPayload) (f : ReqField) (s : String) : requestPayload :=
  match f with
  | .method => { p with Method := s }
  | .path => { p with Path := s }
  | .payload => { p with Payload := s }

/-- Keep the first error (`saveError`). -/
def saveError (saved : Option JsonError) (e : JsonError) : Option JsonError :=
  match saved with
  | some s => some s
  | none => some e

/-- Store one object member into a `requestPayload`. -/
def storeField (acc : requestPayload × Option JsonError) (kv : String × JsonValue) :
    requestPayload × Option JsonError :=
  match findField kv.1 with
  | none => acc
  | some f =>
    match kv.2 with
    | .str s => (setField acc.1 f s, acc.2)
    | .null => acc
    | .other kind => (acc.1, saveError acc.2 (.unmarshalType kind))

/-- The call `json.Unmarshal([]byte(data), payload)` for `payload` a
`*requestPayload`: the struct afterwards and the error returned. -/
def unmarshalRequest (data : String) (p : requestPayload) : requestPayload × Option JsonError :=
  match readTop data.toList with
  | none => (p, some .invalidJson)
  | some (.object ms) => ms.foldl storeField (p, none)
  | some (.value .null) => (p, none)
  | some (.value (.str _)) => (p, some (.unmarshalType "string"))
  | some (.value (.other kind)) => (p, some (.unmarshalType kind))

/-- Store one object member into a `map[string]string`: a value that is not a
string leaves the zero value under its key. -/
def storeEntry (acc : GoMap String × Option JsonError) (kv : String × JsonValue) :
    GoMap String × Option JsonError :=
  match kv.2 with
  | .str s => (acc.1.set kv.1 s, acc.2)
  | .null => (acc.1.set kv.1 "", acc.2)
  | .other kind => (acc.1.set kv.1 "", saveError acc.2 (.unmarshalType kind))

/-- The call `json.Unmarshal([]byte(message), &payload)` for `payload` a
`map[string]string`: the map afterwards and the error returned. -/
def unmarshalHeaders (message : String) (m : GoMap String) : GoMap String × Option JsonError :=
  match readTop message.toList with
  | none => (m, some .invalidJson)
  | some (.object ms) => ms.foldl storeEntry (m, none)
  | some (.value .null) => (GoMap.empty, none)
  | some (.value (.str _)) => (m, some (.unmarshalType "string"))
  | some (.value (.other kind)) => (m, some (.unmarshalType kind))

/-- A hexadecimal digit, lower case. -/
def hexDigit (n : Nat) : Char :=
  "0123456789abcdef".toList.getD n '0'

/-- How the encoder writes one character of a string (HTML escaping on, as
`json.Marshal` has it; `\b` and `\f` as Go 1.22 writes them). -/
def escapeChar (c : Char) : List Char :=
  if c == '"' then ['\\', '"']
  else if c == '\\' then ['\\', '\\']
  else if c == Char.ofNat 8 then ['\\', 'b']
  else if c == Char.ofNat 12 then ['\\', 'f']
  else if c == '\n' then ['\\', 'n']
  else if c == '\r' then ['\\', 'r']
  else if c == '\t' then ['\\', 't']
  else if c.toNat < 0x20 ∨ c == '<' ∨ c == '>' ∨ c == '&' then
    ['\\', 'u', '0', '0', hexDigit (c.toNat / 16), hexDigit (c.toNat % 16)]
  else if c.toNat = 0x2028 then "\\u2028".toList
  else if c.toNat = 0x2029 then "\\u2029".toList
  else [c]

/-- A string as a JSON string literal. -/
def quoteString (s : String) : String :=
  String.mk ('"' :: (s.toList.flatMap escapeChar ++ ['"']))

/-- An `int` in decimal. -/
def formatInt (n : Int) : String :=
  match n with
  | .ofNat m => Nat.repr m
  | .negSucc m => "-" ++ Nat.repr (m + 1)

/-- The call `json.Marshal(payload)` for `payload` a `*responsePayload`: the
fields in declaration order under their tag names.  No value of this type
makes the encoder fail. -/
def jsonMarshal (p : responsePayload) : String × Option JsonError :=
  ("\x7b\"status\":" ++ formatInt p.Status ++ ",\"payload\":" ++ quoteString p.Payload ++ "\x7d",
    none)

/-! ## The collaborators -/

/-- The error a socket read returns: glue's `ErrSocketClosed`, its
`ErrReadTimeout`, or any other error. -/
inductive ReadError where
  | ErrSocketClosed
  | ErrReadTimeout
  | other (msg : String)
  deriving DecidableEq, Repr

/-- A glue socket as the handshake meets it: its remote address and what
`Read` returns for a given timeout (in nanoseconds). -/
structure Socket where
  RemoteAddr : String
  Read : Nat → String × Option ReadError

/-- The reader `strings.NewReader(s)`: the string, the read position and the
index of the previous rune. -/
structure StringsReader where
  s : String
  i : Int
  prevRune : Int
  deriving DecidableEq, Repr

/-- The constructor `strings.NewReader`. -/
def NewReader (s : String) : StringsReader :=
  { s := s, i := 0, prevRune := -1 }

/-- The type `ferry.ConnectionRequest`. -/
structure ConnectionRequest where
  RemoteAddr : String
  Header : GoMap (List String)
  deriving DecidableEq

/-- The type `ferry.IncomingRequest`. -/
structure IncomingRequest where
  Method : String
  RequestURI : String
  Payload : StringsReader
  deriving DecidableEq, Repr

/-- A `ferry.Response`, by what its method `Response()` returns. -/
structure Response where
  status : Int
  payload : String
  deriving DecidableEq, Repr

/-- The ferry backend, with state `σ` and connections `Conn`.  `NewConnection`
returns a connection and a response; the response is `some` when the
connection is denied (`res != nil`). -/
structure Ferry (σ Conn : Type) where
  NewConnection : ConnectionRequest → σ → (Conn × Option Response) × σ
  Handle : Conn → IncomingRequest → σ → Response × σ

/-- The constants of package cement the bridge replies with. -/
structure Cement where
  CodeOk : Int
  CodeError : Int
  MsgInvalidPayload : String

/-- A call the bridge makes into a collaborator.  `channelOnRead name conn`
is `socket.Channel(name).OnRead(cement.Glue(channel, b.onRequest(conn)))`. -/
inductive Event (Conn : Type) where
  | socketRead (timeout : Nat)
  | socketClose
  | socketWrite (data : String)
  | newConnection (cr : ConnectionRequest)
  | channelOnRead (name : String) (conn : Conn)
  | handle (conn : Conn) (req : IncomingRequest)
  deriving DecidableEq

/-- The state a run of the bridge acts on: the backend and the calls made so
far, oldest first. -/
structure World (σ Conn : Type) where
  backend : σ
  trace : List (Event Conn)
  deriving DecidableEq

/-- Record a call. -/
def World.emit {σ Conn : Type} (w : World σ Conn) (e : Event Conn) : World σ Conn :=
  { w with trace := w.trace ++ [e] }

/-- How a Go function ends: it returns, or it panics. -/
inductive Outcome (α : Type) where
  | returned (a : α)
  | panicked (err : JsonError)
  deriving DecidableEq

/-- Apply a function to what was returned. -/
def Outcome.map {α β : Type} (f : α → β) : Outcome α → Outcome β
  | .returned a => .returned (f a)
  | .panicked e => .panicked e

/-! ## bridge.go -/

/-- The constant `glueMainChannelName`. -/
def glueMainChannelName : String := "m"

/-- The struct `GlueBridge`, with the fields the handshake and the request
handler read. -/
structure GlueBridge (σ Conn : Type) where
  ferry : Ferry σ Conn
  ConnectionMessageTimeout : Nat

/-- The duration `time.Second`, in nanoseconds. -/
def Second : Nat := 1000000000

/-- The constructor `Bridge`, as far as the handshake and the request handler
see its result: the backend and the default connection message timeout. -/
def Bridge {σ Conn : Type} (f : Ferry σ Conn) : GlueBridge σ Conn :=
  { ferry := f, ConnectionMessageTimeout := 10 * Second }

/-- The function `marshalResponse`. -/
def marshalResponse (res : Response) : Outcome String :=
  let payload : responsePayload := { Status := res.status, Payload := res.payload }
  match jsonMarshal payload with
  | (_, some err) => .panicked err
  | (b, none) => .returned b

/-- The handler `b.onRequest(conn)` returns, applied to a socket, a message id
and the message data. -/
def onRequest {σ Conn : Type} (c : Cement) (b : GlueBridge σ Conn) (conn : Conn)
    (_socket : Socket) (_messageId : String) (data : String) (w : World σ Conn) :
    Outcome ((Int × String) × World σ Conn) :=
  match unmarshalRequest data { Method := "", Path := "", Payload := "" } with
  | (_, some _) => .returned ((c.CodeError, c.MsgInvalidPayload), w)
  | (payload, none) =>
    let req : IncomingRequest :=
      { Method := payload.Method, RequestURI := payload.Path, Payload := NewReader payload.Payload }
    let (res, backend) := b.ferry.Handle conn req w.backend
    let w1 : World σ Conn := { backend := backend, trace := w.trace ++ [.handle conn req] }
    match marshalResponse res with
    | .panicked err => .panicked err
    | .returned s => .returned ((c.CodeOk, s), w1)

/-- The method `initSocketConnection`. -/
def initSocketConnection {σ Conn : Type} (_b : GlueBridge σ Conn) (_socket : Socket) (conn : Conn)
    (w : World σ Conn) : World σ Conn :=
  w.emit (.channelOnRead glueMainChannelName conn)

/-- The loop that converts the parsed header object into a
`map[string][]string`. -/
def convertHeader (payload : GoMap String) : GoMap (List String) :=
  payload.entries.foldl (fun header kv => header.set kv.1 [kv.2]) GoMap.empty

/-- The method `handleConnectingSocket`. -/
def handleConnectingSocket {σ Conn : Type} (b : GlueBridge σ Conn) (socket : Socket)
    (w : World σ Conn) : Outcome (World σ Conn) :=
  let w0 := w.emit (.socketRead b.ConnectionMessageTimeout)
  match socket.Read b.ConnectionMessageTimeout with
  | (_, some err) =>
    if err ≠ ReadError.ErrSocketClosed then .returned (w0.emit .socketClose)
    else .returned w0
  | (message, none) =>
    let (payload, err) := unmarshalHeaders message GoMap.empty
    let w1 := if err ≠ none then w0.emit .socketClose else w0
    let header := convertHeader payload
    let cr : ConnectionRequest := { RemoteAddr := socket.RemoteAddr, Header := header }
    let ((conn, res), backend) := b.ferry.NewConnection cr w1.backend
    let w2 : World σ Conn := { backend := backend, trace := w1.trace ++ [.newConnection cr] }
    match res with
    | some res =>
      match marshalResponse res with
      | .panicked e => .panicked e
      | .returned s => .returned (w2.emit (.socketWrite s))
    | none => .returned (initSocketConnection b socket conn w2)

/-- The transport delivering messages (message id and data) to a channel
handler: one call per message, one at a time, in arrival order; the replies in
the same order. -/
def deliver {σ Conn : Type}
    (handler : String → String → World σ Conn → Outcome ((Int × String) × World σ Conn)) :
    List (String × String) → World σ Conn → Outcome (List (Int × String) × World σ Conn)
  | [], w => .returned ([], w)
  | (messageId, data) :: rest, w =>
    match handler messageId data w with
    | .panicked e => .panicked e
    | .returned (reply, w1) =>
      match deliver handler rest w1 with
      | .panicked e => .panicked e
      | .returned (replies, w2) => .returned (reply :: replies, w2)

/-! ## Reading a trace -/

/-- The connection requests of the admission calls in a trace. -/
def admissionCalls {Conn : Type} : List (Event Conn) → List ConnectionRequest
  | [] => []
  | .newConnection cr :: es => cr :: admissionCalls es
  | _ :: es => admissionCalls es

/-- The messages written to the socket in a trace. -/
def socketWrites {Conn : Type} : List (Event Conn) → List String
  | [] => []
  | .socketWrite s :: es => s :: socketWrites es
  | _ :: es => socketWrites es

/-- The number of `Close` calls in a trace. -/
def closeCalls {Conn : Type} : List (Event Conn) → Nat
  | [] => 0
  | .socketClose :: es => closeCalls es + 1
  | _ :: es => closeCalls es

/-- The handlers installed in a trace: channel name and bound connection. -/
def installedHandlers {Conn : Type} : List (Event Conn) → List (String × Conn)
  | [] => []
  | .channelOnRead name conn :: es => (name, conn) :: installedHandlers es
  | _ :: es => installedHandlers es

/-- The requests of the `Handle` calls in a trace. -/
def handleCalls {Conn : Type} : List (Event Conn) → List (Conn × IncomingRequest)
  | [] => []
  | .handle conn req :: es => (conn, req) :: handleCalls es
  | _ :: es => handleCalls es

/-- The backend alone, handed a list of requests in order on one connection:
the responses it returns and its state afterwards. -/
def Ferry.handleAll {σ Conn : Type} (f : Ferry σ Conn) (conn : Conn) :
    List IncomingRequest → σ → List Response × σ
  | [], s => ([], s)
  | req :: reqs, s =>
    let (res, s1) := f.Handle conn req s
    let (rs, s2) := f.handleAll conn reqs s1
    (res :: rs, s2)

/-- The request decoded from a message. -/
def decodedRequest (data : String) : IncomingRequest :=
  let payload := (unmarshalRequest data { Method := "", Path := "", Payload := "" }).1
  { Method := payload.Method, RequestURI := payload.Path, Payload := NewReader payload.Payload }

/-- The encoding of a backend response as a response message. -/
def encodeResponse (res : Response) : String :=
  (jsonMarshal { Status := res.status, Payload := res.payload }).1

/-- What the handshake does after the step that reads the message: the calls
it makes once the headers are decoded. -/
def handshakeTail {σ Conn : Type} (b : GlueBridge σ Conn) (socket : Socket) (message : String)
    (s : σ) : List (Event Conn) :=
  let d := unmarshalHeaders message GoMap.empty
  let cr : ConnectionRequest := { RemoteAddr := socket.RemoteAddr, Header := convertHeader d.1 }
  let r := b.ferry.NewConnection cr s
  (if d.2 ≠ none then [Event.socketClose] else []) ++ [Event.newConnection cr] ++
    (match r.1.2 with
     | some res => [Event.socketWrite (encodeResponse res)]
     | none => [Event.channelOnRead glueMainChannelName r.1.1])

/-! ## Concrete collaborators, to run the bridge on -/

/-- A backend that counts the calls it receives.  It admits a connection that
carries the header `token: secret` and denies any other with status 401; it
answers `GET /items/1` with status 200 and anything else with 404. -/
def demoFerry : Ferry Nat Nat where
  NewConnection := fun cr s =>
    if cr.Header.get? "token" = some ["secret"] then ((s, none), s + 1)
    else ((0, some { status := 401, payload := "unauthorized" }), s + 1)
  Handle := fun _ req s =>
    if req.Method = "GET" ∧ req.RequestURI = "/items/1" then
      ({ status := 200, payload := "\x7b\"id\":1\x7d" }, s + 1)
    else ({ status := 404, payload := "not found" }, s + 1)

/-- A backend that admits every connection. -/
def openFerry : Ferry Nat Nat where
  NewConnection := fun _ s => ((s, none), s + 1)
  Handle := fun _ _ s => ({ status := 204, payload := "" }, s + 1)

/-- A bridge over `demoFerry` with the default timeout of ten seconds. -/
def demoBridge : GlueBridge Nat Nat :=
  Bridge demoFerry

/-- A bridge over `openFerry` with the default timeout of ten seconds. -/
def openBridge : GlueBridge Nat Nat :=
  Bridge openFerry

/-- Reply codes to run the handler with. -/
def demoCement : Cement :=
  { CodeOk := 0, CodeError := 1, MsgInvalidPayload := "invalid payload" }

/-- A socket whose read returns the given message. -/
def socketWith (message : String) : Socket :=
  { RemoteAddr := "10.0.0.7:5000", Read := fun _ => (message, none) }

/-- A socket whose read fails with the given error. -/
def socketFailing (err : ReadError) : Socket :=
  { RemoteAddr := "10.0.0.7:5000", Read := fun _ => ("", some err) }

/-- The world before anything has happened. -/
def world0 : World Nat Nat :=
  { backend := 0, trace := [] }

/-! ## The scanner does not run out of fuel -/

theorem skipSpace_length (cs : List Char) : (skipSpace cs).length ≤ cs.length := by
  induction cs with
  | nil => simp [skipSpace]
  | cons c t ih =>
    unfold skipSpace
    split
    · exact Nat.le_succ_of_le ih
    · exact Nat.le_refl _

theorem scanStringAux_length (st : StrState) (out cs : List Char) (p : List Char × List Char)
    (h : scanStringAux st out cs = some p) : p.2.length < cs.length := by
  induction cs generalizing st out with
  | nil => cases st <;> simp [scanStringAux] at h
  | cons c t ih =>
    cases st <;> simp only [scanStringAux] at h <;> repeat' split at h
    all_goals
      first
        | exact Nat.lt_succ_of_lt (ih _ _ h)
        | (cases h; exact Nat.lt_succ_self _)
        | cases h

theorem scanNumberAux_length (st : NumState) (cs r : List Char)
    (h : scanNumberAux st cs = some r) : r.length ≤ cs.length := by
  induction cs generalizing st with
  | nil => cases st <;> simp [scanNumberAux] at h <;> simp [h]
  | cons c t ih =>
    cases st <;> simp only [scanNumberAux] at h <;> split_ifs at h <;>
      first
        | exact Nat.le_succ_of_le (ih _ h)
        | (cases h; exact Nat.le_refl _)

theorem dropLit_length (lit cs r : List Char) (h : dropLit lit cs = some r) :
    r.length ≤ cs.length := by
  induction lit generalizing cs with
  | nil =>
    simp [dropLit] at h
    simp [h]
  | cons l ls ih =>
    cases cs with
    | nil => simp [dropLit] at h
    | cons c t =>
      simp only [dropLit] at h
      split_ifs at h
      exact Nat.le_succ_of_le (ih _ h)

theorem scanKey_length (cs : List Char) (p : List Char × List Char)
    (h : scanKey cs = some p) : p.2.length < cs.length := by
  unfold scanKey at h
  have h1 := skipSpace_length cs
  rcases hs : skipSpace cs with _ | ⟨q, r⟩
  · rw [hs] at h
    cases h
  · rw [hs] at h h1
    simp only at h
    split_ifs at h
    rcases hk : scanString r with _ | ⟨k, r2⟩
    · rw [hk] at h
      cases h
    · rw [hk] at h
      simp only at h
      have h2 := scanStringAux_length _ _ _ _ hk
      have h3 := skipSpace_length r2
      rcases hs2 : skipSpace r2 with _ | ⟨c, r3⟩
      · rw [hs2] at h
        cases h
      · rw [hs2] at h h3
        simp only at h
        split_ifs at h
        cases h
        simp only [List.length_cons] at h1 h2 h3 ⊢
        omega

theorem bind_congr_on {α β : Type} (o : Option α) (f g : α → Option β)
    (h : ∀ a, o = some a → f a = g a) : o.bind f = o.bind g := by
  cases o with
  | none => rfl
  | some a => exact h a rfl

theorem scanNext_fuel_succ (n : Nat) : ∀ (stack : List ParseState) (begin : Bool)
    (cs : List Char), cs.length < n → scanNext n stack begin cs = scanNext (n + 1) stack begin cs := by
  induction n with
  | zero => intro _ _ cs h; omega
  | succ n ih =>
    intro stack begin cs h
    have h1 := skipSpace_length cs
    cases begin with
    | true =>
      rw [scanNext, scanNext]
      rcases hs : skipSpace cs with _ | ⟨c, r⟩
      · rfl
      · rw [hs] at h1
        simp only [List.length_cons] at h1
        dsimp only
        have hstr : (scanString r).bind (fun p => scanNext n stack false p.2) =
            (scanString r).bind (fun p => scanNext (n + 1) stack false p.2) := by
          apply bind_congr_on
          intro p hp
          have := scanStringAux_length _ _ _ _ hp
          exact ih _ _ _ (by omega)
        have hlit : ∀ lit, (dropLit lit r).bind (scanNext n stack false) =
            (dropLit lit r).bind (scanNext (n + 1) stack false) := by
          intro lit
          apply bind_congr_on
          intro p hp
          have := dropLit_length _ _ _ hp
          exact ih _ _ _ (by omega)
        have hnum : ∀ st, (scanNumberAux st r).bind (scanNext n stack false) =
            (scanNumberAux st r).bind (scanNext (n + 1) stack false) := by
          intro st
          apply bind_congr_on
          intro p hp
          have := scanNumberAux_length _ _ _ hp
          exact ih _ _ _ (by omega)
        have hkey : ∀ st, (scanKey r).bind (fun p => scanNext n st true p.2) =
            (scanKey r).bind (fun p => scanNext (n + 1) st true p.2) := by
          intro st
          apply bind_congr_on
          intro p hp
          have := scanKey_length _ _ hp
          exact ih _ _ _ (by omega)
        have h2 := skipSpace_length r
        rw [hstr, hlit, hlit, hlit, hnum, hnum, hnum]
        rcases hs2 : skipSpace r with _ | ⟨c2, r2⟩
        · rfl
        · rw [hs2] at h2
          simp only [List.length_cons] at h2
          dsimp only
          rw [hkey, ih stack false r2 (by omega), ih (.parseArrayValue :: stack) true r (by omega)]
    | false =>
      rcases stack with _ | ⟨top, st⟩
      · rfl
      · cases top with
        | parseObjectValue =>
          rw [scanNext, scanNext]
          rcases hs : skipSpace cs with _ | ⟨c, r⟩
          · rfl
          · rw [hs] at h1
            simp only [List.length_cons] at h1
            dsimp only
            have hkey : (scanKey r).bind
                (fun p => scanNext n (.parseObjectValue :: st) true p.2) =
                (scanKey r).bind (fun p => scanNext (n + 1) (.parseObjectValue :: st) true p.2) := by
              apply bind_congr_on
              intro p hp
              have := scanKey_length _ _ hp
              exact ih _ _ _ (by omega)
            rw [hkey, ih st false r (by omega)]
        | parseArrayValue =>
          rw [scanNext, scanNext]
          rcases hs : skipSpace cs with _ | ⟨c, r⟩
          · rfl
          · rw [hs] at h1
            simp only [List.length_cons] at h1
            dsimp only
            rw [ih (.parseArrayValue :: st) true r (by omega), ih st false r (by omega)]

theorem scanNext_fuel (cs : List Char) (stack : List ParseState) (begin : Bool) (n : Nat)
    (h : cs.length < n) : scanNext n stack begin cs = scanNext (cs.length + 1) stack begin cs := by
  induction n with
  | zero => omega
  | succ n ih =>
    by_cases hn : cs.length < n
    · rw [← scanNext_fuel_succ n stack begin cs hn]
      exact ih hn
    · have : n = cs.length := by omega
      rw [this]

set_option maxHeartbeats 1000000 in
theorem scanNext_length (n : Nat) : ∀ (stack : List ParseState) (begin : Bool)
    (cs r : List Char), scanNext n stack begin cs = some r →
      r.length ≤ cs.length ∧ (begin = true → r.length < cs.length) := by
  induction n with
  | zero =>
    intro stack begin cs r h
    simp [scanNext] at h
  | succ n ih =>
    intro stack begin cs r h
    have h1 := skipSpace_length cs
    suffices hs : (begin = true → r.length < cs.length) ∧ (begin = false → r.length ≤ cs.length) by
      cases begin
      · exact ⟨hs.2 rfl, fun hb => by cases hb⟩
      · exact ⟨Nat.le_of_lt (hs.1 rfl), hs.1⟩
    cases begin with
    | true =>
      refine ⟨fun _ => ?_, fun hb => by cases hb⟩
      rw [scanNext] at h
      rcases hs : skipSpace cs with _ | ⟨c, r0⟩
      · rw [hs] at h
        cases h
      · rw [hs] at h h1
        simp only [List.length_cons] at h1
        dsimp only at h
        have h2 := skipSpace_length r0
        rcases hs2 : skipSpace r0 with _ | ⟨c2, r2⟩ <;> rw [hs2] at h h2 <;>
          dsimp only at h <;> simp only [List.length_cons, List.length_nil] at h2 <;>
          repeat' split at h
        all_goals
          first
            | (rcases Option.bind_eq_some.1 h with ⟨p, hp, hr⟩
               have := (ih _ _ _ _ hr).1
               first
                 | (have hlen := scanStringAux_length _ _ _ _ hp
                    omega)
                 | (have hlen := dropLit_length _ _ _ hp
                    omega)
                 | (have hlen := scanNumberAux_length _ _ _ hp
                    omega)
                 | (have hlen := scanKey_length _ _ hp
                    omega))
            | (have hlen := (ih _ _ _ _ h).1
               omega)
            | cases h
    | false =>
      refine ⟨(fun hb => by cases hb), fun _ => ?_⟩
      rcases stack with _ | ⟨top, st⟩
      · rw [scanNext] at h
        cases h
        exact Nat.le_refl _
      · cases top <;> rw [scanNext] at h <;>
          rcases hs : skipSpace cs with _ | ⟨c, r0⟩ <;> rw [hs] at h h1 <;>
          simp only [List.length_cons, List.length_nil] at h1 <;> dsimp only at h <;>
          repeat' split at h
        all_goals
          first
            | (rcases Option.bind_eq_some.1 h with ⟨p, hp, hr⟩
               have := (ih _ _ _ _ hr).1
               have := scanKey_length _ _ hp
               omega)
            | (have hlen := (ih _ _ _ _ h).1
               omega)
            | cases h

theorem readValue_length (cs : List Char) (p : JsonValue × List Char)
    (h : readValue cs = some p) : p.2.length < cs.length := by
  unfold readValue at h
  have h1 := skipSpace_length cs
  rcases hs : skipSpace cs with _ | ⟨c, r⟩
  · rw [hs] at h
    cases h
  · rw [hs] at h h1
    simp only [List.length_cons] at h1
    dsimp only at h
    by_cases hc : (c == '"') = true
    · rw [if_pos hc] at h
      rcases Option.map_eq_some'.1 h with ⟨q, hq, hp⟩
      have := scanStringAux_length _ _ _ _ hq
      rw [← hp]
      dsimp only
      omega
    · rw [if_neg hc] at h
      rcases Option.map_eq_some'.1 h with ⟨q, hq, hp⟩
      have := (scanNext_length _ _ _ _ _ hq).2 rfl
      rw [← hp]
      simp only [List.length_cons] at this ⊢
      omega

theorem readMembers_fuel_succ (n : Nat) : ∀ cs : List Char, cs.length < n →
    readMembers n cs = readMembers (n + 1) cs := by
  induction n with
  | zero => intro cs h; omega
  | succ n ih =>
    intro cs h
    rw [readMembers, readMembers]
    rcases hk : scanKey cs with _ | ⟨k, r⟩
    · rfl
    · dsimp only
      have h1 := scanKey_length _ _ hk
      rcases hv : readValue r with _ | ⟨v, r2⟩
      · rfl
      · dsimp only
        have h2 := readValue_length _ _ hv
        have h3 := skipSpace_length r2
        rcases hs : skipSpace r2 with _ | ⟨c, r3⟩
        · rfl
        · rw [hs] at h3
          simp only [List.length_cons] at h1 h2 h3
          dsimp only at h1 h2 ⊢
          rw [ih r3 (by omega)]

theorem readMembers_fuel (cs : List Char) (n : Nat) (h : cs.length < n) :
    readMembers n cs = readMembers (cs.length + 1) cs := by
  induction n with
  | zero => omega
  | succ n ih =>
    by_cases hn : cs.length < n
    · rw [← readMembers_fuel_succ n cs hn]
      exact ih hn
    · have : n = cs.length := by omega
      rw [this]

/-- The fuel `skipValue` gives the scanner is enough: more changes nothing. -/
theorem skipValue_fuel (cs : List Char) (n : Nat) (h : cs.length < n) :
    scanNext n [] true cs = skipValue cs := by
  unfold skipValue
  rw [scanNext_fuel cs [] true n h, scanNext_fuel cs [] true (2 * cs.length + 2) (by omega)]

/-! ## Lemmas on maps -/

theorem GoMap.find_filter_ne {α : Type} (l : List (String × α)) (k k2 : String) (h : k2 ≠ k) :
    (l.filter (fun e => e.1 ≠ k)).find? (fun e => e.1 == k2) = l.find? (fun e => e.1 == k2) := by
  induction l with
  | nil => rfl
  | cons e t ih =>
    by_cases hk : e.1 = k
    · have hne : (e.1 == k2) = false := by
        rw [beq_eq_false_iff_ne]
        exact fun h2 => h (h2.symm.trans hk)
      have hf : decide (e.1 ≠ k) = false := by simp [hk]
      rw [List.filter_cons, hf, List.find?_cons, hne]
      exact ih
    · have hf : decide (e.1 ≠ k) = true := by simp [hk]
      rw [List.filter_cons, hf]
      simp only [if_true, List.find?_cons]
      rw [ih]

theorem GoMap.get_set_self {α : Type} (m : GoMap α) (k : String) (v : α) :
    (m.set k v).get? k = some v := by
  unfold GoMap.get? GoMap.set
  rw [List.find?_cons]
  simp

theorem GoMap.get_set_ne {α : Type} (m : GoMap α) (k k2 : String) (v : α) (h : k2 ≠ k) :
    (m.set k v).get? k2 = m.get? k2 := by
  have hk : (k == k2) = false := by
    rw [beq_eq_false_iff_ne]
    exact fun h2 => h h2.symm
  unfold GoMap.get? GoMap.set
  rw [List.find?_cons]
  simp only [hk]
  rw [GoMap.find_filter_ne _ _ _ h]

theorem GoMap.mem_keys_iff {α : Type} (m : GoMap α) (k : String) :
    k ∈ m.keys ↔ (m.get? k).isSome = true := by
  unfold GoMap.keys GoMap.get?
  rw [Option.isSome_map', List.find?_isSome]
  constructor
  · intro h
    rcases List.mem_map.1 h with ⟨e, he, hk⟩
    exact ⟨e, he, by simp [hk]⟩
  · rintro ⟨e, he, hk⟩
    exact List.mem_map.2 ⟨e, he, by simpa using hk⟩

theorem GoMap.find_eq_none_of_not_mem {α : Type} (l : List (String × α)) (k : String)
    (h : k ∉ l.map Prod.fst) : l.find? (fun e => e.1 == k) = none := by
  rw [List.find?_eq_none]
  intro e he hk
  exact h (List.mem_map.2 ⟨e, he, by simpa using hk⟩)

theorem convertHeader_fold_get (l : List (String × String)) (acc : GoMap (List String))
    (hl : (l.map Prod.fst).Nodup) (k : String) :
    (l.foldl (fun header kv => header.set kv.1 [kv.2]) acc).get? k =
      match l.find? (fun e => e.1 == k) with
      | some e => some [e.2]
      | none => acc.get? k := by
  induction l generalizing acc with
  | nil => rfl
  | cons e t ih =>
    rw [List.map_cons, List.nodup_cons] at hl
    rw [List.foldl_cons, ih _ hl.2, List.find?_cons]
    by_cases hk : e.1 = k
    · have hnone : t.find? (fun e => e.1 == k) = none :=
        GoMap.find_eq_none_of_not_mem t k (hk ▸ hl.1)
      have hb : (e.1 == k) = true := by simp [hk]
      rw [hnone, hb, ← hk]
      exact GoMap.get_set_self _ _ _
    · have hk2 : k ≠ e.1 := fun h => hk h.symm
      have hb : (e.1 == k) = false := by
        rw [beq_eq_false_iff_ne]
        exact hk
      rw [hb, GoMap.get_set_ne _ _ _ _ hk2]

theorem convertHeader_get (payload : GoMap String) (k : String) :
    (convertHeader payload).get? k = (payload.get? k).map (fun v => [v]) := by
  unfold convertHeader
  rw [convertHeader_fold_get _ _ payload.nodup]
  unfold GoMap.get?
  cases payload.entries.find? (fun e => e.1 == k) <;> rfl

theorem convertHeader_keys_perm (payload : GoMap String) :
    (convertHeader payload).keys.Perm payload.keys := by
  have hn1 : (convertHeader payload).keys.Nodup := (convertHeader payload).nodup
  have hn2 : payload.keys.Nodup := payload.nodup
  rw [List.perm_ext_iff_of_nodup hn1 hn2]
  intro k
  rw [GoMap.mem_keys_iff, GoMap.mem_keys_iff, convertHeader_get]
  cases payload.get? k <;> rfl

theorem convertHeader_len (payload : GoMap String) :
    (convertHeader payload).len = payload.len := by
  have h := (convertHeader_keys_perm payload).length_eq
  simpa [GoMap.keys, GoMap.len] using h

/-! ## Lemmas on traces -/

theorem admissionCalls_append {Conn : Type} (l1 l2 : List (Event Conn)) :
    admissionCalls (l1 ++ l2) = admissionCalls l1 ++ admissionCalls l2 := by
  induction l1 with
  | nil => rfl
  | cons e t ih => cases e <;> simp [admissionCalls, ih]

theorem socketWrites_append {Conn : Type} (l1 l2 : List (Event Conn)) :
    socketWrites (l1 ++ l2) = socketWrites l1 ++ socketWrites l2 := by
  induction l1 with
  | nil => rfl
  | cons e t ih => cases e <;> simp [socketWrites, ih]

theorem closeCalls_append {Conn : Type} (l1 l2 : List (Event Conn)) :
    closeCalls (l1 ++ l2) = closeCalls l1 + closeCalls l2 := by
  induction l1 with
  | nil => simp [closeCalls]
  | cons e t ih => cases e <;> simp [closeCalls, ih]; omega

theorem installedHandlers_append {Conn : Type} (l1 l2 : List (Event Conn)) :
    installedHandlers (l1 ++ l2) = installedHandlers l1 ++ installedHandlers l2 := by
  induction l1 with
  | nil => rfl
  | cons e t ih => cases e <;> simp [installedHandlers, ih]

theorem handleCalls_append {Conn : Type} (l1 l2 : List (Event Conn)) :
    handleCalls (l1 ++ l2) = handleCalls l1 ++ handleCalls l2 := by
  induction l1 with
  | nil => rfl
  | cons e t ih => cases e <;> simp [handleCalls, ih]

/-! ## The shape of a run -/

/-- Encoding a response never panics. -/
theorem marshalResponse_returned (res : Response) :
    marshalResponse res = .returned (encodeResponse res) := rfl

theorem handleConnectingSocket_message {σ Conn : Type} (b : GlueBridge σ Conn) (socket : Socket)
    (w : World σ Conn) (message : String)
    (hread : socket.Read b.ConnectionMessageTimeout = (message, none)) :
    handleConnectingSocket b socket w =
      .returned
        { backend := (b.ferry.NewConnection
            { RemoteAddr := socket.RemoteAddr,
              Header := convertHeader (unmarshalHeaders message GoMap.empty).1 } w.backend).2
          trace := w.trace ++ [Event.socketRead b.ConnectionMessageTimeout] ++
            handshakeTail b socket message w.backend } := by
  unfold handleConnectingSocket handshakeTail
  simp only [hread]
  rcases hd : unmarshalHeaders message GoMap.empty with ⟨payload, err⟩
  rcases hn : b.ferry.NewConnection
    { RemoteAddr := socket.RemoteAddr, Header := convertHeader payload } w.backend
    with ⟨⟨conn, res⟩, s⟩
  cases err <;> cases res <;>
    simp [World.emit, hn, marshalResponse_returned, initSocketConnection]

theorem handleConnectingSocket_error {σ Conn : Type} (b : GlueBridge σ Conn) (socket : Socket)
    (w : World σ Conn) (message : String) (err : ReadError)
    (hread : socket.Read b.ConnectionMessageTimeout = (message, some err)) :
    handleConnectingSocket b socket w =
      .returned
        { backend := w.backend
          trace := w.trace ++ [Event.socketRead b.ConnectionMessageTimeout] ++
            (if err = ReadError.ErrSocketClosed then [] else [Event.socketClose]) } := by
  unfold handleConnectingSocket
  simp only [hread]
  by_cases h : err = ReadError.ErrSocketClosed <;> simp [World.emit, h]

theorem onRequest_valid {σ Conn : Type} (c : Cement) (b : GlueBridge σ Conn) (conn : Conn)
    (socket : Socket) (messageId data : String) (w : World σ Conn)
    (h : (unmarshalRequest data { Method := "", Path := "", Payload := "" }).2 = none) :
    onRequest c b conn socket messageId data w =
      .returned
        ((c.CodeOk, encodeResponse (b.ferry.Handle conn (decodedRequest data) w.backend).1),
          { backend := (b.ferry.Handle conn (decodedRequest data) w.backend).2
            trace := w.trace ++ [Event.handle conn (decodedRequest data)] }) := by
  unfold onRequest decodedRequest
  rcases hd : unmarshalRequest data { Method := "", Path := "", Payload := "" } with ⟨p, err⟩
  rw [hd] at h
  simp only at h
  subst h
  simp [marshalResponse_returned]

theorem onRequest_invalid {σ Conn : Type} (c : Cement) (b : GlueBridge σ Conn) (conn : Conn)
    (socket : Socket) (messageId data : String) (w : World σ Conn)
    (h : (unmarshalRequest data { Method := "", Path := "", Payload := "" }).2 ≠ none) :
    onRequest c b conn socket messageId data w =
      .returned ((c.CodeError, c.MsgInvalidPayload), w) := by
  unfold onRequest
  rcases hd : unmarshalRequest data { Method := "", Path := "", Payload := "" } with ⟨p, err⟩
  rw [hd] at h
  cases err with
  | none => exact absurd rfl h
  | some e => rfl

theorem deliver_valid {σ Conn : Type} (c : Cement) (b : GlueBridge σ Conn) (conn : Conn)
    (socket : Socket) (msgs : List (String × String)) (w : World σ Conn)
    (hvalid : ∀ m ∈ msgs,
      (unmarshalRequest m.2 { Method := "", Path := "", Payload := "" }).2 = none) :
    deliver (onRequest c b conn socket) msgs w =
      .returned
        ((b.ferry.handleAll conn (msgs.map (fun m => decodedRequest m.2)) w.backend).1.map
            (fun r => (c.CodeOk, encodeResponse r)),
          { backend :=
              (b.ferry.handleAll conn (msgs.map (fun m => decodedRequest m.2)) w.backend).2
            trace := w.trace ++ msgs.map (fun m => Event.handle conn (decodedRequest m.2)) }) := by
  induction msgs generalizing w with
  | nil => simp [deliver, Ferry.handleAll]
  | cons m rest ih =>
    obtain ⟨messageId, data⟩ := m
    have h1 := hvalid (messageId, data) (List.mem_cons_self _ _)
    have h2 : ∀ m ∈ rest,
        (unmarshalRequest m.2 { Method := "", Path := "", Payload := "" }).2 = none :=
      fun m hm => hvalid m (List.mem_cons_of_mem _ hm)
    simp only [deliver, onRequest_valid c b conn socket messageId data w h1, ih _ h2,
      List.map_cons, Ferry.handleAll, List.append_assoc, List.singleton_append]

theorem deliver_cons {σ Conn : Type}
    (handler : String → String → World σ Conn → Outcome ((Int × String) × World σ Conn))
    (messageId data : String) (rest : List (String × String)) (w : World σ Conn) :
    deliver handler ((messageId, data) :: rest) w =
      match handler messageId data w with
      | .panicked e => .panicked e
      | .returned (reply, w1) =>
        match deliver handler rest w1 with
        | .panicked e => .panicked e
        | .returned (replies, w2) => .returned (reply :: replies, w2) := rfl

theorem handleAll_length {σ Conn : Type} (f : Ferry σ Conn) (conn : Conn)
    (reqs : List IncomingRequest) (s : σ) : (f.handleAll conn reqs s).1.length = reqs.length := by
  induction reqs generalizing s with
  | nil => rfl
  | cons r rs ih => simp [Ferry.handleAll, ih]

/-! ## The claims -/

/-- C1. When the connection message decodes without error to a mapping, the
handshake makes one admission call, and the headers of its connection request
have exactly the keys of the decoded mapping (the same keys, the same number
N of them), each key mapped to the one-element list holding the value the
decoded mapping gives it. -/
theorem admission_headers_fan_out {σ Conn : Type} (b : GlueBridge σ Conn) (socket : Socket)
    (w : World σ Conn) (message : String) (payload : GoMap String)
    (hread : socket.Read b.ConnectionMessageTimeout = (message, none))
    (hdec : unmarshalHeaders message GoMap.empty = (payload, none)) :
    ∃ w1 cr, handleConnectingSocket b socket w = .returned w1 ∧
      admissionCalls w1.trace = admissionCalls w.trace ++ [cr] ∧
      cr.RemoteAddr = socket.RemoteAddr ∧
      cr.Header.keys.Perm payload.keys ∧
      cr.Header.len = payload.len ∧
      ∀ k, cr.Header.get? k = (payload.get? k).map (fun v => [v]) := by
  refine ⟨_, { RemoteAddr := socket.RemoteAddr, Header := convertHeader payload },
    handleConnectingSocket_message b socket w message hread, ?_, rfl,
    convertHeader_keys_perm payload, convertHeader_len payload, convertHeader_get payload⟩
  simp only [handshakeTail, hdec, admissionCalls_append]
  cases (b.ferry.NewConnection
    { RemoteAddr := socket.RemoteAddr, Header := convertHeader payload } w.backend).1.2 <;>
    simp [admissionCalls]

/-- C1 at the message `{"token":"secret","a":"b"}`. -/
theorem admission_headers_fan_out_witness :
    unmarshalHeaders "\x7b\"token\":\"secret\",\"a\":\"b\"\x7d" GoMap.empty =
        ((GoMap.empty.set "token" "secret").set "a" "b", none) ∧
      ∃ w1 cr,
        handleConnectingSocket demoBridge (socketWith "\x7b\"token\":\"secret\",\"a\":\"b\"\x7d")
          world0 = .returned w1 ∧
        admissionCalls w1.trace = admissionCalls world0.trace ++ [cr] ∧
        cr.RemoteAddr = (socketWith "\x7b\"token\":\"secret\",\"a\":\"b\"\x7d").RemoteAddr ∧
        cr.Header.keys.Perm ((GoMap.empty.set "token" "secret").set "a" "b").keys ∧
        cr.Header.len = ((GoMap.empty.set "token" "secret").set "a" "b").len ∧
        ∀ k, cr.Header.get? k =
          (((GoMap.empty.set "token" "secret").set "a" "b").get? k).map (fun v => [v]) :=
  ⟨by decide,
    admission_headers_fan_out demoBridge (socketWith "\x7b\"token\":\"secret\",\"a\":\"b\"\x7d")
      world0 "\x7b\"token\":\"secret\",\"a\":\"b\"\x7d"
      ((GoMap.empty.set "token" "secret").set "a" "b") rfl (by decide)⟩

/-- C2. K valid request messages delivered in order to the handler of
`onRequest(conn)` make it call `conn.Handle` exactly K times, the i-th time
with the method, the path and a reader over the payload decoded from the i-th
message, and produce exactly K replies in arrival order, the i-th being the
OK code with the encoding of what the backend returned for the i-th request;
the handler makes no other call. -/
theorem requests_answered_in_order {σ Conn : Type} (c : Cement) (b : GlueBridge σ Conn)
    (conn : Conn) (socket : Socket) (msgs : List (String × String)) (w : World σ Conn)
    (hvalid : ∀ m ∈ msgs,
      (unmarshalRequest m.2 { Method := "", Path := "", Payload := "" }).2 = none) :
    ∃ replies w1, deliver (onRequest c b conn socket) msgs w = .returned (replies, w1) ∧
      replies.length = msgs.length ∧
      replies =
        (b.ferry.handleAll conn (msgs.map (fun m => decodedRequest m.2)) w.backend).1.map
          (fun r => (c.CodeOk, encodeResponse r)) ∧
      w1.trace = w.trace ++ msgs.map (fun m => Event.handle conn (decodedRequest m.2)) ∧
      handleCalls w1.trace =
        handleCalls w.trace ++ msgs.map (fun m => (conn, decodedRequest m.2)) ∧
      (∀ m ∈ msgs, (decodedRequest m.2).Payload.s =
          (unmarshalRequest m.2 { Method := "", Path := "", Payload := "" }).1.Payload ∧
        (decodedRequest m.2).Payload.i = 0) ∧
      w1.backend =
        (b.ferry.handleAll conn (msgs.map (fun m => decodedRequest m.2)) w.backend).2 := by
  refine ⟨_, _, deliver_valid c b conn socket msgs w hvalid, ?_, rfl, rfl, ?_, ?_, rfl⟩
  · simp [handleAll_length]
  · simp only [handleCalls_append]
    congr 1
    clear hvalid
    induction msgs with
    | nil => rfl
    | cons m rest ih => simp [handleCalls, ih]
  · intro m _
    exact ⟨rfl, rfl⟩

/-- C2 at two requests, `GET /items/1` and `GET /items/2`. -/
theorem requests_answered_in_order_witness :
    ∃ replies w1,
      deliver (onRequest demoCement demoBridge 0 (socketWith ""))
        [("1", "\x7b\"method\":\"GET\",\"path\":\"/items/1\",\"payload\":\"\"\x7d"),
         ("2", "\x7b\"method\":\"GET\",\"path\":\"/items/2\",\"payload\":\"x\"\x7d")] world0 =
          .returned (replies, w1) ∧
      replies.length = 2 ∧
      replies =
        [(0, "\x7b\"status\":200,\"payload\":\"\x7b\\\"id\\\":1\x7d\"\x7d"),
         (0, "\x7b\"status\":404,\"payload\":\"not found\"\x7d")] ∧
      handleCalls w1.trace =
        [(0, { Method := "GET", RequestURI := "/items/1", Payload := NewReader "" }),
         (0, { Method := "GET", RequestURI := "/items/2", Payload := NewReader "x" })] := by
  obtain ⟨replies, w1, h1, h2, h3, _, h5, _, _⟩ :=
    requests_answered_in_order demoCement demoBridge 0 (socketWith "")
      [("1", "\x7b\"method\":\"GET\",\"path\":\"/items/1\",\"payload\":\"\"\x7d"),
       ("2", "\x7b\"method\":\"GET\",\"path\":\"/items/2\",\"payload\":\"x\"\x7d")] world0
      (by decide)
  refine ⟨replies, w1, h1, h2, ?_, ?_⟩
  · rw [h3]
    decide
  · rw [h5]
    decide

/-- C3. A request message that fails to decode is answered with the fixed
pair (`CodeError`, `MsgInvalidPayload`) and leaves the world as it was: no
call to `conn.Handle`, no close of the socket and no write to it.  Delivered
anywhere in a sequence of messages, it adds its own reply at its place and
changes nothing else: the other messages get the replies they would get
without it, and the backend and the trace end as they would without it. -/
theorem malformed_request_is_isolated {σ Conn : Type} (c : Cement) (b : GlueBridge σ Conn)
    (conn : Conn) (socket : Socket) (messageId data : String)
    (hbad : (unmarshalRequest data { Method := "", Path := "", Payload := "" }).2 ≠ none) :
    (∀ w : World σ Conn, onRequest c b conn socket messageId data w =
        .returned ((c.CodeError, c.MsgInvalidPayload), w)) ∧
      ∀ (before after : List (String × String)) (w : World σ Conn),
        deliver (onRequest c b conn socket) (before ++ (messageId, data) :: after) w =
          (deliver (onRequest c b conn socket) (before ++ after) w).map
            (fun r => (r.1.take before.length ++
              (c.CodeError, c.MsgInvalidPayload) :: r.1.drop before.length, r.2)) := by
  have hone := onRequest_invalid c b conn socket messageId data
  refine ⟨fun w => hone w hbad, ?_⟩
  intro before after
  induction before with
  | nil =>
    intro w
    simp only [List.nil_append, deliver, hone w hbad, List.length_nil, List.take_zero,
      List.drop_zero]
    cases deliver (onRequest c b conn socket) after w <;> rfl
  | cons m rest ih =>
    intro w
    obtain ⟨mid, d⟩ := m
    rw [List.cons_append, List.cons_append, deliver_cons, deliver_cons]
    cases onRequest c b conn socket mid d w with
    | panicked e => rfl
    | returned r =>
      obtain ⟨reply, w1⟩ := r
      dsimp only
      rw [ih w1]
      cases deliver (onRequest c b conn socket) (rest ++ after) w1 with
      | panicked e => rfl
      | returned r2 => simp [Outcome.map]

/-- C3 at the message `oops`, alone and in front of a valid request. -/
theorem malformed_request_is_isolated_witness :
    (unmarshalRequest "oops" { Method := "", Path := "", Payload := "" }).2 ≠ none ∧
      onRequest demoCement demoBridge 0 (socketWith "") "1" "oops" world0 =
        .returned ((1, "invalid payload"), world0) ∧
      deliver (onRequest demoCement demoBridge 0 (socketWith ""))
        [("1", "oops"),
         ("2", "\x7b\"method\":\"GET\",\"path\":\"/items/1\",\"payload\":\"\"\x7d")] world0 =
        (deliver (onRequest demoCement demoBridge 0 (socketWith ""))
          [("2", "\x7b\"method\":\"GET\",\"path\":\"/items/1\",\"payload\":\"\"\x7d")] world0).map
          (fun r => ((1, "invalid payload") :: r.1, r.2)) :=
  ⟨by decide,
    (malformed_request_is_isolated demoCement demoBridge 0 (socketWith "") "1" "oops"
      (by decide)).1 world0,
    (malformed_request_is_isolated demoCement demoBridge 0 (socketWith "") "1" "oops"
      (by decide)).2 []
      [("2", "\x7b\"method\":\"GET\",\"path\":\"/items/1\",\"payload\":\"\"\x7d")] world0⟩

/-- C6. When the first read returns an error, the handshake makes no
admission call, writes nothing to the socket and installs no handler; it
calls `Close` once when the error is anything but `ErrSocketClosed` (a read
timeout included) and not at all when it is `ErrSocketClosed`. -/
theorem read_error_ends_handshake {σ Conn : Type} (b : GlueBridge σ Conn) (socket : Socket)
    (w : World σ Conn) (message : String) (err : ReadError)
    (hread : socket.Read b.ConnectionMessageTimeout = (message, some err)) :
    ∃ w1 ev, handleConnectingSocket b socket w = .returned w1 ∧
      w1.trace = w.trace ++ Event.socketRead b.ConnectionMessageTimeout :: ev ∧
      w1.backend = w.backend ∧
      admissionCalls ev = [] ∧ socketWrites ev = [] ∧ installedHandlers ev = [] ∧
      closeCalls ev = (if err = ReadError.ErrSocketClosed then 0 else 1) ∧
      ev = (if err = ReadError.ErrSocketClosed then [] else [Event.socketClose]) := by
  refine ⟨_, if err = ReadError.ErrSocketClosed then [] else [Event.socketClose],
    handleConnectingSocket_error b socket w message err hread, ?_, rfl, ?_, ?_, ?_, ?_, rfl⟩
  · simp
  all_goals
    by_cases h : err = ReadError.ErrSocketClosed <;>
      simp [h, admissionCalls, socketWrites, installedHandlers, closeCalls]

/-- C6 at a read that times out. -/
theorem read_error_ends_handshake_witness :
    ∃ w1 ev, handleConnectingSocket demoBridge (socketFailing .ErrReadTimeout) world0 =
        .returned w1 ∧
      w1.trace = world0.trace ++ Event.socketRead demoBridge.ConnectionMessageTimeout :: ev ∧
      w1.backend = world0.backend ∧
      admissionCalls ev = [] ∧ socketWrites ev = [] ∧ installedHandlers ev = [] ∧
      closeCalls ev = (if ReadError.ErrReadTimeout = ReadError.ErrSocketClosed then 0 else 1) ∧
      ev = (if ReadError.ErrReadTimeout = ReadError.ErrSocketClosed then []
        else [Event.socketClose]) :=
  read_error_ends_handshake demoBridge (socketFailing .ErrReadTimeout) world0 ""
    .ErrReadTimeout rfl

/-- C7. For the request message
`{"method":"GET","path":"/items/1","payload":""}` and a backend whose `Handle`
answers it with status 200 and payload `{"id":1}`, the handler calls the
backend once, with method `GET`, path `/items/1` and a reader over the empty
string, and replies with the OK code and exactly the message
`{"status":200,"payload":"{\"id\":1}"}`. -/
theorem get_item_example {σ Conn : Type} (c : Cement) (b : GlueBridge σ Conn) (conn : Conn)
    (socket : Socket) (messageId : String) (w : World σ Conn)
    (hbackend : (b.ferry.Handle conn
        { Method := "GET", RequestURI := "/items/1", Payload := NewReader "" } w.backend).1 =
      { status := 200, payload := "\x7b\"id\":1\x7d" }) :
    onRequest c b conn socket messageId
        "\x7b\"method\":\"GET\",\"path\":\"/items/1\",\"payload\":\"\"\x7d" w =
      .returned
        ((c.CodeOk, "\x7b\"status\":200,\"payload\":\"\x7b\\\"id\\\":1\x7d\"\x7d"),
          { backend := (b.ferry.Handle conn
              { Method := "GET", RequestURI := "/items/1", Payload := NewReader "" } w.backend).2
            trace := w.trace ++
              [Event.handle conn
                { Method := "GET", RequestURI := "/items/1", Payload := NewReader "" }] }) := by
  have hdec : unmarshalRequest "\x7b\"method\":\"GET\",\"path\":\"/items/1\",\"payload\":\"\"\x7d"
      { Method := "", Path := "", Payload := "" } =
      ({ Method := "GET", Path := "/items/1", Payload := "" }, none) := by decide
  have hreq : decodedRequest "\x7b\"method\":\"GET\",\"path\":\"/items/1\",\"payload\":\"\"\x7d" =
      { Method := "GET", RequestURI := "/items/1", Payload := NewReader "" } := by
    unfold decodedRequest
    rw [hdec]
  have henc : encodeResponse { status := 200, payload := "\x7b\"id\":1\x7d" } =
      "\x7b\"status\":200,\"payload\":\"\x7b\\\"id\\\":1\x7d\"\x7d" := by decide
  rw [onRequest_valid c b conn socket messageId _ w (by rw [hdec]), hreq, hbackend, henc]

/-- C7 on the demo backend. -/
theorem get_item_example_witness :
    onRequest demoCement demoBridge 0 (socketWith "") "1"
        "\x7b\"method\":\"GET\",\"path\":\"/items/1\",\"payload\":\"\"\x7d" world0 =
      .returned
        ((demoCement.CodeOk, "\x7b\"status\":200,\"payload\":\"\x7b\\\"id\\\":1\x7d\"\x7d"),
          { backend := (demoBridge.ferry.Handle 0
              { Method := "GET", RequestURI := "/items/1", Payload := NewReader "" }
              world0.backend).2
            trace := world0.trace ++
              [Event.handle 0
                { Method := "GET", RequestURI := "/items/1", Payload := NewReader "" }] }) :=
  get_item_example demoCement demoBridge 0 (socketWith "") "1" world0 (by decide)

/-- C8. A run of the handshake on a socket makes at most one admission call.
It installs a handler if and only if that call returned no rejection; it then
installs exactly one, bound to the connection the call returned, and writes
nothing to the socket. -/
theorem one_admission_one_handler {σ Conn : Type} (b : GlueBridge σ Conn) (socket : Socket)
    (w : World σ Conn) :
    ∃ w1 ev, handleConnectingSocket b socket w = .returned w1 ∧
      w1.trace = w.trace ++ ev ∧
      (admissionCalls ev).length ≤ 1 ∧
      (installedHandlers ev ≠ [] ↔
        ∃ cr, admissionCalls ev = [cr] ∧ (b.ferry.NewConnection cr w.backend).1.2 = none) ∧
      ∀ cr, admissionCalls ev = [cr] → (b.ferry.NewConnection cr w.backend).1.2 = none →
        installedHandlers ev =
            [(glueMainChannelName, (b.ferry.NewConnection cr w.backend).1.1)] ∧
          socketWrites ev = [] := by
  rcases hr : socket.Read b.ConnectionMessageTimeout with ⟨message, err⟩
  cases err with
  | some e =>
    refine ⟨_, _, handleConnectingSocket_error b socket w message e hr,
      List.append_assoc _ _ _, ?_, ?_, ?_⟩
    all_goals
      by_cases h : e = ReadError.ErrSocketClosed <;>
        simp [h, admissionCalls, installedHandlers]
  | none =>
    refine ⟨_, _, handleConnectingSocket_message b socket w message hr,
      List.append_assoc _ _ _, ?_, ?_, ?_⟩
    all_goals
      simp only [handshakeTail, List.singleton_append, List.cons_append, List.nil_append]
      rcases unmarshalHeaders message GoMap.empty with ⟨payload, derr⟩
      rcases hn : b.ferry.NewConnection
        { RemoteAddr := socket.RemoteAddr, Header := convertHeader payload } w.backend
        with ⟨⟨conn, res⟩, s⟩
      cases derr <;> cases res <;>
        simp [admissionCalls, installedHandlers, socketWrites, hn]

/-- C9, as the code has it. For every bridge, socket and connection,
`initSocketConnection` makes one call: it installs the request handler bound
to the connection on the channel named `m`, and on no other channel. -/
theorem handler_on_channel_m {σ Conn : Type} (b : GlueBridge σ Conn) (socket : Socket)
    (conn : Conn) (w : World σ Conn) :
    (initSocketConnection b socket conn w).trace = w.trace ++ [Event.channelOnRead "m" conn] ∧
      installedHandlers (initSocketConnection b socket conn w).trace =
        installedHandlers w.trace ++ [("m", conn)] ∧
      (initSocketConnection b socket conn w).backend = w.backend := by
  refine ⟨rfl, ?_, rfl⟩
  show installedHandlers (w.trace ++ [Event.channelOnRead "m" conn]) = _
  rw [installedHandlers_append]
  rfl

/-- C9 as stated fails: the handler of an admitted session is not installed on
a channel named `main`. -/
theorem handler_on_channel_main_counterexample :
    ¬ installedHandlers (initSocketConnection openBridge (socketWith "") 7 world0).trace =
      [("main", 7)] := by
  decide

/-- C5 at a connection message that is not JSON, on a backend that admits
every connection: the handshake closes the socket and then still makes the
admission call, with empty headers, and installs a handler. -/
theorem admission_after_close :
    handleConnectingSocket openBridge (socketWith "not json") world0 =
      .returned
        { backend := 1
          trace :=
            [Event.socketRead 10000000000, Event.socketClose,
              Event.newConnection { RemoteAddr := "10.0.0.7:5000", Header := GoMap.empty },
              Event.channelOnRead "m" 0] } := by
  decide

/-- C4 at a connection message that is not JSON, on a backend that denies the
connection: the rejection is written to a socket the handshake has closed, so
the run holds one `Close` call. -/
theorem rejection_after_close :
    handleConnectingSocket demoBridge (socketWith "not json") world0 =
      .returned
        { backend := 1
          trace :=
            [Event.socketRead 10000000000, Event.socketClose,
              Event.newConnection { RemoteAddr := "10.0.0.7:5000", Header := GoMap.empty },
              Event.socketWrite "\x7b\"status\":401,\"payload\":\"unauthorized\"\x7d"] } := by
  decide

/-- When the connection message decodes without error and the admission call
returns a rejection, the handshake writes to the socket exactly once, the
encoding of the rejection's status and payload, never calls `Close`, and
installs no handler. -/
theorem rejection_written_once {σ Conn : Type} (b : GlueBridge σ Conn) (socket : Socket)
    (w : World σ Conn) (message : String) (payload : GoMap String) (res : Response)
    (hread : socket.Read b.ConnectionMessageTimeout = (message, none))
    (hdec : unmarshalHeaders message GoMap.empty = (payload, none))
    (hdeny : (b.ferry.NewConnection
        { RemoteAddr := socket.RemoteAddr, Header := convertHeader payload } w.backend).1.2 =
      some res) :
    ∃ w1 ev, handleConnectingSocket b socket w = .returned w1 ∧
      w1.trace = w.trace ++ ev ∧
      socketWrites ev = [encodeResponse res] ∧
      closeCalls ev = 0 ∧
      installedHandlers ev = [] := by
  refine ⟨_, _, handleConnectingSocket_message b socket w message hread,
    List.append_assoc _ _ _, ?_, ?_, ?_⟩
  all_goals
    simp [handshakeTail, hdec, hdeny, socketWrites, closeCalls, installedHandlers]

/-- A rejected admission at the message `{"token":"wrong"}`. -/
theorem rejection_written_once_witness :
    ∃ w1 ev,
      handleConnectingSocket demoBridge (socketWith "\x7b\"token\":\"wrong\"\x7d") world0 =
        .returned w1 ∧
      w1.trace = world0.trace ++ ev ∧
      socketWrites ev = [encodeResponse { status := 401, payload := "unauthorized" }] ∧
      closeCalls ev = 0 ∧
      installedHandlers ev = [] :=
  rejection_written_once demoBridge (socketWith "\x7b\"token\":\"wrong\"\x7d") world0
    "\x7b\"token\":\"wrong\"\x7d" (GoMap.empty.set "token" "wrong")
    { status := 401, payload := "unauthorized" } rfl (by decide) (by decide)

/-- When the connection message is read but fails to decode, the handshake
calls `Close` once and goes on: it makes one admission call, with the headers
converted from the map the decoder left, and then writes the rejection or
installs the handler as the backend decides. -/
theorem decode_failure_goes_on {σ Conn : Type} (b : GlueBridge σ Conn) (socket : Socket)
    (w : World σ Conn) (message : String)
    (hread : socket.Read b.ConnectionMessageTimeout = (message, none))
    (hbad : (unmarshalHeaders message GoMap.empty).2 ≠ none) :
    ∃ w1 last, handleConnectingSocket b socket w = .returned w1 ∧
      w1.trace = w.trace ++
        [Event.socketRead b.ConnectionMessageTimeout, Event.socketClose,
          Event.newConnection
            { RemoteAddr := socket.RemoteAddr
              Header := convertHeader (unmarshalHeaders message GoMap.empty).1 },
          last] ∧
      last =
        (match (b.ferry.NewConnection
            { RemoteAddr := socket.RemoteAddr
              Header := convertHeader (unmarshalHeaders message GoMap.empty).1 } w.backend).1.2 with
        | some res => Event.socketWrite (encodeResponse res)
        | none => Event.channelOnRead glueMainChannelName
            (b.ferry.NewConnection
              { RemoteAddr := socket.RemoteAddr
                Header := convertHeader (unmarshalHeaders message GoMap.empty).1 } w.backend).1.1) := by
  refine ⟨_, _, handleConnectingSocket_message b socket w message hread, ?_, rfl⟩
  simp only [handshakeTail, hbad, ne_eq, not_false_eq_true, if_true, List.append_assoc,
    List.singleton_append, List.cons_append, List.nil_append]
  cases (b.ferry.NewConnection
    { RemoteAddr := socket.RemoteAddr
      Header := convertHeader (unmarshalHeaders message GoMap.empty).1 } w.backend).1.2 <;> rfl

/-- A connection message that is not JSON, on the backend that admits every
connection. -/
theorem decode_failure_goes_on_witness :
    ∃ w1 last, handleConnectingSocket openBridge (socketWith "not json") world0 = .returned w1 ∧
      w1.trace = world0.trace ++
        [Event.socketRead openBridge.ConnectionMessageTimeout, Event.socketClose,
          Event.newConnection
            { RemoteAddr := (socketWith "not json").RemoteAddr
              Header := convertHeader (unmarshalHeaders "not json" GoMap.empty).1 },
          last] ∧
      last =
        (match (openBridge.ferry.NewConnection
            { RemoteAddr := (socketWith "not json").RemoteAddr
              Header := convertHeader (unmarshalHeaders "not json" GoMap.empty).1 }
            world0.backend).1.2 with
        | some res => Event.socketWrite (encodeResponse res)
        | none => Event.channelOnRead glueMainChannelName
            (openBridge.ferry.NewConnection
              { RemoteAddr := (socketWith "not json").RemoteAddr
                Header := convertHeader (unmarshalHeaders "not json" GoMap.empty).1 }
              world0.backend).1.1) :=
  decode_failure_goes_on openBridge (socketWith "not json") world0 "not json" rfl (by decide)

end glue_bridge

